import Mathlib

/-!
Shallow embedding of the STM32WL HAL ADC driver (`hal/src/adc.rs`) and
verification of its specified properties.

Modelling conventions:
* Machine integers (`u16`, `u32`, `u64`, `i16`) are modelled as `Nat`/`Int`
  with explicit wrap-around (`% 2^w`), saturation (`min`), and sign
  reinterpretation where the source uses `wrapping_sub`, `saturating_add`,
  `saturating_mul`, or an `as i16` cast.
* The exact-rational `Ratio<T>` values from the `num-rational` crate are
  modelled as `ℚ`; `Ratio::to_integer` (numerator divided by denominator,
  rounding toward zero as in Rust integer division) is modelled by
  `toIntegerZ` (signed) and `toNatTrunc` (unsigned).
* Register state is a record of the fields the driver reads and writes;
  driver methods are state transformers that also return the list of
  register writes they perform.  A busy-wait loop on a hardware flag is
  modelled by its documented post-condition (the flag value the hardware
  establishes on completion).
* The upstream RCC frequency queries `rcc::pllpclk` and `rcc::sysclk` live
  outside the ADC module; they are passed to `clock_hz` as parameters.
-/

namespace Adc

/-- `Ratio::<i16>::to_integer`: numerator divided by denominator with
Rust (truncate-toward-zero) division. -/
def toIntegerZ (q : ℚ) : Int :=
  Int.tdiv q.num q.den

/-- `Ratio::<u32>::to_integer`: numerator divided by denominator with
Rust unsigned (truncating) division. -/
def toNatTrunc (q : ℚ) : Nat :=
  q.num.toNat / q.den

/-- `u16::wrapping_sub` on values reduced to 16 bits. -/
def wrapSub16 (a b : Nat) : Nat :=
  (a % 65536 + (65536 - b % 65536)) % 65536

/-- `as i16` reinterpretation of a 16-bit value as a signed integer. -/
def toI16 (v : Nat) : Int :=
  if v % 65536 < 32768 then (v % 65536 : Int) else (v % 65536 : Int) - 65536

/-- `u16::saturating_add`. -/
def satAdd16 (a b : Nat) : Nat :=
  min (a + b) 65535

/-- `u64::saturating_mul`. -/
def satMul64 (a b : Nat) : Nat :=
  min (a * b) (2 ^ 64 - 1)

/-- ADC sample times (`enum Ts`), with the `repr(u8)` discriminants of the
source as ordinals. -/
inductive Ts where
  | Cyc1
  | Cyc3
  | Cyc7
  | Cyc12
  | Cyc19
  | Cyc39
  | Cyc79
  | Cyc160
deriving DecidableEq, Repr

/-- The `repr(u8)` discriminant of each `Ts` variant (`Ts as u8`). -/
def tsOrdinal : Ts → Nat
  | .Cyc1 => 0
  | .Cyc3 => 1
  | .Cyc7 => 2
  | .Cyc12 => 3
  | .Cyc19 => 4
  | .Cyc39 => 5
  | .Cyc79 => 6
  | .Cyc160 => 7

/-- `Ts::cycles`: the `(numerator, denominator)` pair built with
`Ratio::new_raw` in the source. -/
def cycles : Ts → Nat × Nat
  | .Cyc1 => (3, 2)
  | .Cyc3 => (7, 2)
  | .Cyc7 => (15, 2)
  | .Cyc12 => (25, 2)
  | .Cyc19 => (39, 2)
  | .Cyc39 => (79, 2)
  | .Cyc79 => (159, 2)
  | .Cyc160 => (321, 2)

/-- The exact rational value of `Ts::cycles`. -/
def cyclesQ (ts : Ts) : ℚ :=
  ((cycles ts).1 : ℚ) / ((cycles ts).2 : ℚ)

/-- The cycle count named by each `Ts` variant (`CycN`); the spec's `n` with
`cycles = (2n+1)/2`. -/
def tsNameNum : Ts → Nat
  | .Cyc1 => 1
  | .Cyc3 => 3
  | .Cyc7 => 7
  | .Cyc12 => 12
  | .Cyc19 => 19
  | .Cyc39 => 39
  | .Cyc79 => 79
  | .Cyc160 => 160

/-- `Ts::as_duration`: nanoseconds, computed as
`numer.saturating_mul(1e9) / denom.saturating_mul(hz)` in `u64`,
fractional nanoseconds rounded toward zero. -/
def as_duration (ts : Ts) (hz : Nat) : Nat :=
  let numer : Nat := satMul64 (cycles ts).1 1000000000
  let denom : Nat := satMul64 (cycles ts).2 hz
  numer / denom

/-- ADC channels (`enum Ch`); 15 and 16 are reserved and have no variant. -/
inductive Ch where
  | In0
  | In1
  | In2
  | In3
  | In4
  | In5
  | In6
  | In7
  | In8
  | In9
  | In10
  | In11
  | Vts
  | Vref
  | Vbat
  | Dac
deriving DecidableEq, Repr

/-- The `repr(u8)` discriminant of each `Ch` variant (`Ch as u8`). -/
def chVal : Ch → Nat
  | .In0 => 0
  | .In1 => 1
  | .In2 => 2
  | .In3 => 3
  | .In4 => 4
  | .In5 => 5
  | .In6 => 6
  | .In7 => 7
  | .In8 => 8
  | .In9 => 9
  | .In10 => 10
  | .In11 => 11
  | .Vts => 12
  | .Vref => 13
  | .Vbat => 14
  | .Dac => 17

/-- `Ch::mask`: `1 << (self as u8)`. -/
def mask (ch : Ch) : Nat :=
  1 <<< chVal ch

/-- `CH_MASK`: mask of all valid channels (0-17 without 15 and 16). -/
def CH_MASK : Nat := 0x27FFF

/-- The `CKMODE` field of `ADC_CFGR2` (2-bit encoding 0-3). -/
inductive Ckmode where
  | adclk
  | pclkDiv2
  | pclkDiv4
  | pclk
deriving DecidableEq, Repr

/-- The `ADCSEL` field of `RCC_CCIPR` (2-bit encoding 0-3). -/
inductive Adcsel where
  | noclock
  | hsi16
  | pllp
  | sysclk
deriving DecidableEq, Repr

/-- Fields of the ADC control register `ADC_CR` read or written by the
driver. -/
structure Cr where
  aden : Bool
  addis : Bool
  adstart : Bool
  adstp : Bool
  adcal : Bool
  advregen : Bool
deriving DecidableEq, Repr

/-- Fields of the ADC interrupt/status register `ADC_ISR` used by the
driver.  All flags are write-1-to-clear. -/
structure Isr where
  adrdy : Bool
  ccrdy : Bool
  eoc : Bool
  eocal : Bool
deriving DecidableEq, Repr

/-- ADC register state visible to the driver. -/
structure AdcState where
  cr : Cr
  isr : Isr
  /-- `CKMODE` field of `ADC_CFGR2`. -/
  ckmode : Ckmode
  /-- Raw 4-bit `PRESC` field of `ADC_CCR` (reserved encodings included). -/
  presc : Nat
  /-- Sample-time register `ADC_SMPR`. -/
  smpr : Nat
  /-- 7-bit `CALFACT` calibration-factor register. -/
  calfact : Nat
deriving DecidableEq, Repr

/-- RCC register state queried by the driver. -/
structure RccState where
  /-- `ADCSEL` field of `RCC_CCIPR`. -/
  adcsel : Adcsel
deriving DecidableEq, Repr

/-- One register write performed by the driver, with the value written. -/
inductive RegWrite where
  /-- Full write of `ADC_ISR` (set bits clear the corresponding flags). -/
  | isrW (v : Isr)
  /-- Write of `ADC_CR` (full write or read-modify-write result). -/
  | crW (v : Cr)
  /-- Full write of `ADC_SMPR`. -/
  | smprW (v : Nat)
deriving DecidableEq, Repr

/-- `Adc::is_enabled`: `ADEN` bit is set. -/
def is_enabled (s : AdcState) : Bool :=
  s.cr.aden

/-- `Adc::is_disabled`: both `ADEN` and `ADDIS` are clear. -/
def is_disabled (s : AdcState) : Bool :=
  !s.cr.aden && !s.cr.addis

/-- `Adc::start_enable`: if `ADEN` is clear, clear the `ADRDY` flag
(write-1-to-clear) and write `ADC_CR` with only `ADEN` set; report whether
the caller should poll for completion. -/
def start_enable (s : AdcState) : AdcState × List RegWrite × Bool :=
  if s.cr.aden = false then
    let isrWritten : Isr := { adrdy := true, ccrdy := false, eoc := false, eocal := false }
    let crWritten : Cr :=
      { aden := true, addis := false, adstart := false, adstp := false,
        adcal := false, advregen := false }
    let s1 : AdcState := { s with isr := { s.isr with adrdy := false } }
    let s2 : AdcState := { s1 with cr := crWritten }
    (s2, [RegWrite.isrW isrWritten, RegWrite.crW crWritten], true)
  else
    (s, [], false)

/-- `Adc::enable`: `start_enable`, then busy-wait until the hardware raises
`ADRDY`; the wait is modelled by its post-condition (`ADRDY` set). -/
def enable (s : AdcState) : AdcState × List RegWrite :=
  match start_enable s with
  | (s1, ws, poll) =>
    if poll then ({ s1 with isr := { s1.isr with adrdy := true } }, ws)
    else (s1, ws)

/-- `Adc::start_disable`: if a conversion is active (`ADSTART` set),
request a stop (`ADSTP` := 1 by read-modify-write) and busy-wait until the
hardware clears `ADSTP` (modelled by its post-condition: `ADSTP` and
`ADSTART` cleared); then, if `ADEN` is set, set `ADDIS` by
read-modify-write. -/
def start_disable (s : AdcState) : AdcState × List RegWrite :=
  let (s1, ws1) :=
    if s.cr.adstart = true then
      let crWritten : Cr := { s.cr with adstp := true }
      let afterStop : Cr := { crWritten with adstp := false, adstart := false }
      ({ s with cr := afterStop }, [RegWrite.crW crWritten])
    else
      (s, [])
  if s1.cr.aden = true then
    let crWritten2 : Cr := { s1.cr with addis := true }
    ({ s1 with cr := crWritten2 }, ws1 ++ [RegWrite.crW crWritten2])
  else
    (s1, ws1)

/-- `Adc::set_sample_times`: a single write to `ADC_SMPR` packing the
channel mask (restricted to valid channels) and the two sample-time
selections. -/
def set_sample_times (s : AdcState) (m : Nat) (sel0 sel1 : Ts) :
    AdcState × List RegWrite :=
  let v : Nat := ((m &&& CH_MASK) <<< 8) ||| (tsOrdinal sel1 <<< 4) ||| tsOrdinal sel0
  ({ s with smpr := v }, [RegWrite.smprW v])

/-- `Adc::set_max_sample_time`: `set_sample_times(0, Cyc160, Cyc160)`. -/
def set_max_sample_time (s : AdcState) : AdcState × List RegWrite :=
  set_sample_times s 0 Ts.Cyc160 Ts.Cyc160

/-- `TS_CAL1_TEMP`: 30 °C. -/
def TS_CAL1_TEMP : Int := 30

/-- `TS_CAL2_TEMP`: 130 °C. -/
def TS_CAL2_TEMP : Int := 130

/-- `TS_CAL_TEMP_DELTA = TS_CAL2_TEMP - TS_CAL1_TEMP`. -/
def TS_CAL_TEMP_DELTA : Int := TS_CAL2_TEMP - TS_CAL1_TEMP

/-- The numeric core of `Adc::temperature` as a function of the raw sample
`s`, the `CALFACT` register value `c`, and the factory constants
`ts_cal1`/`ts_cal2` (all 16-bit raw values):
`Ratio::new_raw(TS_CAL_TEMP_DELTA, ts_cal2.wrapping_sub(ts_cal1) as i16)
  * (s.saturating_add(c).wrapping_sub(ts_cal1) as i16) + TS_CAL1_TEMP`. -/
def temperature (s c cal1 cal2 : Nat) : ℚ :=
  let ret : ℚ := (TS_CAL_TEMP_DELTA : ℚ) / ((toI16 (wrapSub16 cal2 cal1)) : ℚ)
  let ts_data : Nat := satAdd16 s c
  ret * ((toI16 (wrapSub16 ts_data cal1)) : ℚ) + (TS_CAL1_TEMP : ℚ)

/-- The temperature formula in the spec's words: `slope * ((s + c) - cal1)
+ 30` with `slope = (130 - 30) / (cal2 - cal1)` in exact rational
arithmetic, each subtraction of a calibration constant performed with
wrap-around 16-bit arithmetic reinterpreted as signed. -/
def temperatureSpec (s c cal1 cal2 : Nat) : ℚ :=
  let slope : ℚ := ((130 : ℚ) - 30) / ((toI16 (wrapSub16 cal2 cal1)) : ℚ)
  slope * ((toI16 (wrapSub16 (s + c) cal1)) : ℚ) + 30

/-- The `PRESC` field decoding of `ADC_CCR` (`PRESC_A::variant()`):
the twelve enumerated divider values; reserved encodings yield `none`. -/
def prescalerOf (bits : Nat) : Option Nat :=
  match bits with
  | 0 => some 1
  | 1 => some 2
  | 2 => some 4
  | 3 => some 6
  | 4 => some 8
  | 5 => some 10
  | 6 => some 12
  | 7 => some 16
  | 8 => some 32
  | 9 => some 64
  | 10 => some 128
  | 11 => some 256
  | _ => none

/-- The asynchronous-mode upstream source frequency selected by
`RCC_CCIPR.ADCSEL` (the `src` binding in `Adc::clock_hz`); `pllpHz` and
`sysHz` are the frequencies reported by the external `rcc::pllpclk` and
`rcc::sysclk` queries. -/
def asyncSrc (rcc : RccState) (pllpHz sysHz : ℚ) : ℚ :=
  match rcc.adcsel with
  | .noclock => 0
  | .hsi16 => 16000000
  | .pllp => pllpHz
  | .sysclk => sysHz

/-- `Adc::clock_hz`: the ADC clock frequency in hertz (truncated toward
zero) together with a flag recording whether the reserved-prescaler
diagnostic (`error!`) was emitted.  `pllpHz` and `sysHz` are the
frequencies reported by the external `rcc::pllpclk` and `rcc::sysclk`
queries. -/
def clock_hz (s : AdcState) (rcc : RccState) (pllpHz sysHz : ℚ) :
    Nat × Bool :=
  match s.ckmode with
  | .adclk =>
    let src : ℚ := asyncSrc rcc pllpHz sysHz
    match prescalerOf s.presc with
    | some p => (toNatTrunc (src / (p : ℚ)), false)
    | none => (toNatTrunc (src / (1 : ℚ)), true)
  | .pclkDiv2 => (toNatTrunc (pllpHz / 2), false)
  | .pclkDiv4 => (toNatTrunc (pllpHz / 4), false)
  | .pclk => (toNatTrunc pllpHz, false)

/-! Helper lemmas relating the Rust-style truncating conversions to the
mathematical floor. -/

theorem toNatTrunc_eq_natFloor (q : ℚ) : toNatTrunc q = ⌊q⌋₊ := by
  unfold toNatTrunc
  rcases le_or_lt 0 q with h | h
  · have hn : 0 ≤ q.num := Rat.num_nonneg.2 h
    rw [← Int.floor_toNat, Rat.floor_def]
    obtain ⟨m, hm⟩ := Int.eq_ofNat_of_zero_le hn
    rw [hm, ← Int.ofNat_ediv]
    exact (Int.toNat_ofNat _).symm
  · have hn : q.num < 0 := Rat.num_neg.2 h
    have h1 : q.num.toNat = 0 := Int.toNat_of_nonpos hn.le
    rw [h1, Nat.floor_of_nonpos h.le]
    simp

theorem toIntegerZ_eq_floor (q : ℚ) (h : 0 ≤ q) : toIntegerZ q = ⌊q⌋ := by
  unfold toIntegerZ
  have hn : 0 ≤ q.num := Rat.num_nonneg.2 h
  rw [Rat.floor_def]
  obtain ⟨m, hm⟩ := Int.eq_ofNat_of_zero_le hn
  rw [hm, ← Int.ofNat_ediv]
  exact congrArg Int.ofNat (Int.toNat_ofNat _)

theorem toNatTrunc_natCast (b : ℕ) : toNatTrunc (b : ℚ) = b := by
  rw [toNatTrunc_eq_natFloor, Nat.floor_natCast]

theorem toNatTrunc_natCast_div (b k : ℕ) :
    toNatTrunc ((b : ℚ) / (k : ℚ)) = b / k := by
  rw [toNatTrunc_eq_natFloor, Rat.natFloor_natCast_div_natCast]

/-- C3 (counterexample): the variant `Cyc1` has ordinal `k = 0`, but
`cycles()` returns `3/2`, not `(2·0+1)/2 = 1/2`, so the claimed formula
`(2k+1)/2` over the ordinal fails at `Cyc1`. -/
theorem claim_C3_counterexample :
    tsOrdinal Ts.Cyc1 = 0 ∧
      cyclesQ Ts.Cyc1 ≠ (2 * (tsOrdinal Ts.Cyc1 : ℚ) + 1) / 2 := by
  refine ⟨rfl, ?_⟩
  norm_num [cyclesQ, cycles, tsOrdinal]

/-- C3 (amended): for every `SampleTime` variant `CycN`, `cycles()` returns
the exact rational `(2n+1)/2` where `n` is the cycle count `N` named by the
variant (1, 3, 7, 12, 19, 39, 79, 160), not its ordinal. -/
theorem claim_C3_cycles_half_integer (ts : Ts) :
    cyclesQ ts = (2 * (tsNameNum ts : ℚ) + 1) / 2 := by
  cases ts <;> norm_num [cyclesQ, cycles, tsNameNum]

/-- C4: `as_duration(hz)` equals `numerator * 1e9 / (denominator * hz)`
nanoseconds truncated toward zero for every in-range clock frequency, and
at 16 MHz the eight variants give 93, 218, 468, 781, 1218, 2468, 4968 and
10031 nanoseconds. -/
theorem claim_C4_as_duration :
    (∀ (ts : Ts) (hz : ℕ), hz < 2 ^ 32 →
        as_duration ts hz = (cycles ts).1 * 1000000000 / ((cycles ts).2 * hz)) ∧
      as_duration Ts.Cyc1 16000000 = 93 ∧
      as_duration Ts.Cyc3 16000000 = 218 ∧
      as_duration Ts.Cyc7 16000000 = 468 ∧
      as_duration Ts.Cyc12 16000000 = 781 ∧
      as_duration Ts.Cyc19 16000000 = 1218 ∧
      as_duration Ts.Cyc39 16000000 = 2468 ∧
      as_duration Ts.Cyc79 16000000 = 4968 ∧
      as_duration Ts.Cyc160 16000000 = 10031 := by
  refine ⟨?_, ?_⟩
  · intro ts hz hhz
    have hden : satMul64 (cycles ts).2 hz = (cycles ts).2 * hz := by
      cases ts <;>
        exact Nat.min_eq_left (by simp only [cycles]; omega)
    have hnum : satMul64 (cycles ts).1 1000000000 = (cycles ts).1 * 1000000000 := by
      cases ts <;> exact Nat.min_eq_left (by norm_num [cycles])
    simp only [as_duration, hden, hnum]
  · refine ⟨?_, ?_, ?_, ?_, ?_, ?_, ?_, ?_⟩ <;> decide

/-- C4 witness: the general formula applied at `Cyc1` and 16 MHz. -/
theorem claim_C4_witness :
    as_duration Ts.Cyc1 16000000 = 3 * 1000000000 / (2 * 16000000) :=
  claim_C4_as_duration.1 Ts.Cyc1 16000000 (by norm_num)

/-- C8: every channel's `mask()` is one-hot at exactly the channel's
ordinal, and no channel's mask has bit 15 or bit 16 set (those ordinals are
not constructible). -/
theorem claim_C8_mask_one_hot (ch : Ch) (i : ℕ) :
    ((mask ch).testBit i = true ↔ chVal ch = i) ∧
      (mask ch).testBit 15 = false ∧ (mask ch).testBit 16 = false := by
  have h : ∀ n m : ℕ, ((1 <<< n : ℕ).testBit m) = decide (n = m) := by
    intro n m
    rw [Nat.one_shiftLeft, Nat.testBit_two_pow]
  rw [show mask ch = 1 <<< chVal ch from rfl, h, h, h]
  refine ⟨by simp, ?_, ?_⟩ <;> cases ch <;> decide

/-- C2: in every register state whose clock-mode field selects a
synchronous mode, `clock_hz` returns exactly the reported bus-clock
frequency `b` for the undivided mode, `b / 2` truncated toward zero for the
div-2 mode, and `b / 4` truncated toward zero for the div-4 mode (and no
diagnostic is emitted). -/
theorem claim_C2_clock_hz_sync (s : AdcState) (rcc : RccState) (b : ℕ)
    (sysHz : ℚ) :
    (s.ckmode = Ckmode.pclk → clock_hz s rcc (b : ℚ) sysHz = (b, false)) ∧
      (s.ckmode = Ckmode.pclkDiv2 →
        clock_hz s rcc (b : ℚ) sysHz = (b / 2, false)) ∧
      (s.ckmode = Ckmode.pclkDiv4 →
        clock_hz s rcc (b : ℚ) sysHz = (b / 4, false)) := by
  refine ⟨fun h => ?_, fun h => ?_, fun h => ?_⟩ <;>
    simp only [clock_hz, h]
  · rw [toNatTrunc_natCast]
  · rw [show ((2 : ℚ)) = ((2 : ℕ) : ℚ) by norm_num, toNatTrunc_natCast_div]
  · rw [show ((4 : ℚ)) = ((4 : ℕ) : ℚ) by norm_num, toNatTrunc_natCast_div]

/-- C2 witness: the undivided synchronous mode at a 16 MHz bus clock. -/
theorem claim_C2_witness :
    clock_hz
        ⟨⟨false, false, false, false, false, false⟩,
          ⟨false, false, false, false⟩, Ckmode.pclk, 0, 0, 0⟩
        ⟨Adcsel.hsi16⟩ ((16000000 : ℕ) : ℚ) 0 = (16000000, false) :=
  (claim_C2_clock_hz_sync _ _ 16000000 0).1 rfl

/-- C5: in every register state selecting the asynchronous clock mode with
a reserved (non-enumerated) prescaler encoding, `clock_hz` does not fail:
it reports the diagnostic and returns the selected upstream source
frequency divided by 1, i.e. the same frequency value it returns when the
prescaler field holds the div-1 encoding. -/
theorem claim_C5_reserved_prescaler (s : AdcState) (rcc : RccState)
    (pllpHz sysHz : ℚ) (hm : s.ckmode = Ckmode.adclk)
    (hp : prescalerOf s.presc = none) :
    clock_hz s rcc pllpHz sysHz = (toNatTrunc (asyncSrc rcc pllpHz sysHz), true) ∧
      (clock_hz s rcc pllpHz sysHz).1 =
        (clock_hz { s with presc := 0 } rcc pllpHz sysHz).1 := by
  have h1 : clock_hz s rcc pllpHz sysHz =
      (toNatTrunc (asyncSrc rcc pllpHz sysHz), true) := by
    simp [clock_hz, hm, hp]
  refine ⟨h1, ?_⟩
  rw [h1]
  simp [clock_hz, hm, prescalerOf]

/-- C5 witness: a reserved prescaler encoding (raw value 12) with the
HSI16 source selected falls back to the un-prescaled 16 MHz. -/
theorem claim_C5_witness :
    clock_hz
        ⟨⟨false, false, false, false, false, false⟩,
          ⟨false, false, false, false⟩, Ckmode.adclk, 12, 0, 0⟩
        ⟨Adcsel.hsi16⟩ 0 0 =
      (toNatTrunc (asyncSrc ⟨Adcsel.hsi16⟩ 0 0), true) :=
  (claim_C5_reserved_prescaler
      ⟨⟨false, false, false, false, false, false⟩,
        ⟨false, false, false, false⟩, Ckmode.adclk, 12, 0, 0⟩
      ⟨Adcsel.hsi16⟩ 0 0 rfl rfl).1

/-- C10: in every register state selecting the asynchronous clock mode
while the clock-tree multiplexer holds the no-clock selection, `clock_hz`
returns frequency 0 (for every prescaler encoding, valid or reserved)
rather than failing. -/
theorem claim_C10_noclock_zero (s : AdcState) (rcc : RccState)
    (pllpHz sysHz : ℚ) (hm : s.ckmode = Ckmode.adclk)
    (hsel : rcc.adcsel = Adcsel.noclock) :
    (clock_hz s rcc pllpHz sysHz).1 = 0 := by
  have hsrc : asyncSrc rcc pllpHz sysHz = 0 := by
    simp [asyncSrc, hsel]
  cases h : prescalerOf s.presc <;>
    simp [clock_hz, hm, h, hsrc, toNatTrunc]

/-- C10 witness: async mode, no-clock multiplexer selection, valid div-1
prescaler. -/
theorem claim_C10_witness :
    (clock_hz
        ⟨⟨false, false, false, false, false, false⟩,
          ⟨false, false, false, false⟩, Ckmode.adclk, 0, 0, 0⟩
        ⟨Adcsel.noclock⟩ 123 456).1 = 0 :=
  claim_C10_noclock_zero _ _ 123 456 rfl rfl

/-- C1: for every raw sample `s` and calibration factor `c` whose sum stays
in 16-bit range, `temperature` equals the spec formula
`slope * ((s + c) - cal1) + 30` with `slope = (130 - 30) / (cal2 - cal1)`
in exact rational arithmetic, each subtraction of a calibration constant
performed in wrap-around 16-bit arithmetic reinterpreted as signed; at
`s = 1500`, `c = 10`, `cal1 = 1400`, `cal2 = 1800` the truncated-toward-zero
integer result is 57. -/
theorem claim_C1_temperature (s c cal1 cal2 : ℕ) (h : s + c ≤ 65535) :
    temperature s c cal1 cal2 = temperatureSpec s c cal1 cal2 ∧
      toIntegerZ (temperature 1500 10 1400 1800) = 57 := by
  constructor
  · have hsat : satAdd16 s c = s + c := Nat.min_eq_left h
    simp only [temperature, temperatureSpec, hsat, TS_CAL_TEMP_DELTA,
      TS_CAL1_TEMP, TS_CAL2_TEMP]
    norm_num
  · have h1 : temperature 1500 10 1400 1800 = (115 : ℚ) / 2 := by
      norm_num [temperature, wrapSub16, toI16, satAdd16, TS_CAL_TEMP_DELTA,
        TS_CAL1_TEMP, TS_CAL2_TEMP]
    rw [h1, toIntegerZ_eq_floor _ (by norm_num)]
    norm_num

/-- C1 witness: the end-to-end scenario of the spec evaluated through the
theorem. -/
theorem claim_C1_witness : toIntegerZ (temperature 1500 10 1400 1800) = 57 :=
  (claim_C1_temperature 1500 10 1400 1800 (by norm_num)).2

/-- C6: `enable` on an already-enabled peripheral and `start_disable` on an
already-disabled peripheral (enable bit and disable-request bit clear, no
conversion active) perform no register writes and leave the state
unchanged. -/
theorem claim_C6_idempotence (s : AdcState) :
    (s.cr.aden = true → enable s = (s, [])) ∧
      (s.cr.aden = false → s.cr.addis = false → s.cr.adstart = false →
        start_disable s = (s, [])) := by
  constructor
  · intro h
    simp [enable, start_enable, h]
  · intro h1 _h2 h3
    simp [start_disable, h1, h3]

/-- C6 witness: a state with the enable bit set, and a fully disabled
state, exercised through the theorem. -/
theorem claim_C6_witness :
    enable
        ⟨⟨true, false, false, false, false, false⟩,
          ⟨true, false, false, false⟩, Ckmode.adclk, 0, 0, 0⟩ =
      (⟨⟨true, false, false, false, false, false⟩,
          ⟨true, false, false, false⟩, Ckmode.adclk, 0, 0, 0⟩, []) ∧
    start_disable
        ⟨⟨false, false, false, false, false, false⟩,
          ⟨false, false, false, false⟩, Ckmode.adclk, 0, 0, 0⟩ =
      (⟨⟨false, false, false, false, false, false⟩,
          ⟨false, false, false, false⟩, Ckmode.adclk, 0, 0, 0⟩, []) :=
  ⟨(claim_C6_idempotence _).1 rfl, (claim_C6_idempotence _).2 rfl rfl rfl⟩

/-- C7: `set_sample_times` performs exactly one write, to the sample-time
register, with value `(mask & 0x27FFF) << 8 | sel1 << 4 | sel0`; bits 15
and 16 of the caller's mask never reach the register (the written value has
bits 23 and 24 clear for every mask); and `set_max_sample_time` equals
`set_sample_times(0, Cyc160, Cyc160)`. -/
theorem claim_C7_set_sample_times (s : AdcState) (m : ℕ) (sel0 sel1 : Ts) :
    (set_sample_times s m sel0 sel1).2 =
        [RegWrite.smprW
          (((m &&& 0x27FFF) <<< 8) ||| (tsOrdinal sel1 <<< 4) ||| tsOrdinal sel0)] ∧
      ((((m &&& 0x27FFF) <<< 8) ||| (tsOrdinal sel1 <<< 4) |||
          tsOrdinal sel0).testBit 23 = false ∧
        (((m &&& 0x27FFF) <<< 8) ||| (tsOrdinal sel1 <<< 4) |||
          tsOrdinal sel0).testBit 24 = false) ∧
      set_max_sample_time s = set_sample_times s 0 Ts.Cyc160 Ts.Cyc160 := by
  have hsel1 : ∀ (j : ℕ), 7 ≤ j → (tsOrdinal sel1 <<< 4).testBit j = false := by
    intro j hj
    apply Nat.testBit_lt_two_pow
    calc tsOrdinal sel1 <<< 4 < 2 ^ 7 := by cases sel1 <;> decide
    _ ≤ 2 ^ j := Nat.pow_le_pow_right (by norm_num) hj
  have hsel0 : ∀ (j : ℕ), 3 ≤ j → (tsOrdinal sel0).testBit j = false := by
    intro j hj
    apply Nat.testBit_lt_two_pow
    calc tsOrdinal sel0 < 2 ^ 3 := by cases sel0 <;> decide
    _ ≤ 2 ^ j := Nat.pow_le_pow_right (by norm_num) hj
  have hhi : ∀ (j : ℕ), (0x27FFF : ℕ).testBit j = false →
      ((m &&& 0x27FFF) <<< 8).testBit (j + 8) = false := by
    intro j hj
    rw [Nat.testBit_shiftLeft]
    simp [Nat.testBit_and, hj]
  refine ⟨rfl, ⟨?_, ?_⟩, rfl⟩
  · rw [Nat.testBit_or, Nat.testBit_or]
    rw [show (23 : ℕ) = 15 + 8 from rfl]
    rw [hhi 15 (by decide), hsel1 23 (by norm_num), hsel0 23 (by norm_num)]
    rfl
  · rw [Nat.testBit_or, Nat.testBit_or]
    rw [show (24 : ℕ) = 16 + 8 from rfl]
    rw [hhi 16 (by decide), hsel1 24 (by norm_num), hsel0 24 (by norm_num)]
    rfl

/-- C9: `is_disabled` is not the negation of `is_enabled`: disabled implies
not enabled, but a state with the enable bit clear and the disable-request
bit set is neither enabled nor disabled. -/
theorem claim_C9_disabled_not_negation :
    (∀ s : AdcState, is_disabled s = true → is_enabled s = false) ∧
      (is_enabled
          ⟨⟨false, true, false, false, false, false⟩,
            ⟨false, false, false, false⟩, Ckmode.adclk, 0, 0, 0⟩ = false ∧
        is_disabled
          ⟨⟨false, true, false, false, false, false⟩,
            ⟨false, false, false, false⟩, Ckmode.adclk, 0, 0, 0⟩ = false) := by
  refine ⟨?_, rfl, rfl⟩
  intro s h
  simp only [is_disabled, Bool.and_eq_true, Bool.not_eq_true'] at h
  simp [is_enabled, h.1]

/-- C9 witness: the implication applied at a concrete disabled state. -/
theorem claim_C9_witness :
    is_enabled
        ⟨⟨false, false, false, false, false, false⟩,
          ⟨false, false, false, false⟩, Ckmode.adclk, 0, 0, 0⟩ = false :=
  claim_C9_disabled_not_negation.1 _ rfl

end Adc
